import Mathlib

/-!
Verification of the NikiViti Solaris request-dispatch logic.

Shallow embedding of the conversation store and request dispatcher of the
repository.  JavaScript strings are modelled as lists of characters
(`Str`); the JS idioms used by the source — `split(',')`, the lazy regex
`/:(.*?);/`, `slice(-n)`, `trim()`, truthiness of strings — are each given
an explicit executable model.  The dispatcher `sendMessageToGemini`
(src/services/geminiService.ts) is embedded together with its near-duplicate
revisions (src/unnamed/part_003, src/unnamed/part_002) and the App.tsx
call-site state transition.
-/

/-- JavaScript strings, modelled as lists of characters. -/
abbrev Str := List Char

/-- Lift a Lean string literal to the `Str` model. -/
def str (s : String) : Str := s.toList

/-- Model of JavaScript `s.split(',')`: the comma-separated segments of `s`,
in order.  Always returns at least one segment. -/
def splitComma : Str → List Str
  | [] => [[]]
  | c :: rest =>
    if c = ',' then [] :: splitComma rest
    else
      match splitComma rest with
      | seg :: segs => (c :: seg) :: segs
      | [] => [[c]]

/-- Helper for the lazy regex `/:(.*?);/`: the characters up to the first
`';'`, or `none` if there is no `';'`. -/
def captureUpToSemi : Str → Option Str
  | [] => none
  | c :: rest =>
    if c = ';' then some []
    else (captureUpToSemi rest).map (fun t => c :: t)

/-- Model of `s.match(/:(.*?);/)?.[1]`: the (lazily minimal) capture between
the first `':'` that is followed by some `';'`, and that `';'`. -/
def matchColonSemi : Str → Option Str
  | [] => none
  | c :: rest =>
    if c = ':' then
      match captureUpToSemi rest with
      | some t => some t
      | none => matchColonSemi rest
    else matchColonSemi rest

/-- The default MIME type used when the data-URL header is not parseable. -/
def defaultPng : Str := str "image/png"

/-- Model of `mimeInfo.match(/:(.*?);/)?.[1] || 'image/png'`: the captured
MIME type, or `"image/png"` when the match fails or captures the empty
string (both are falsy in JS). -/
def extractMime (mimeInfo : Str) : Str :=
  match matchColonSemi mimeInfo with
  | some t => if t = [] then defaultPng else t
  | none => defaultPng

/-- Model of JavaScript `arr.slice(-n)` for a non-negative literal `n`:
for `n ≥ 1` the last `n` elements (all of them if fewer), while `slice(-0)`
is `slice(0)`, i.e. the whole array. -/
def jsSliceLast (n : Nat) (l : List α) : List α :=
  if n = 0 then l else l.drop (l.length - n)

/-- Whitespace test for the model of `String.prototype.trim`. -/
def isWsChar (c : Char) : Bool :=
  c = ' ' || c = '\t' || c = '\n' || c = '\r'

/-- Model of JavaScript `s.trim()`. -/
def trimChars (s : Str) : Str :=
  ((s.dropWhile isWsChar).reverse.dropWhile isWsChar).reverse

/-- Does `s` start with the pattern `p`? (model of `s.startsWith(p)`). -/
def strStartsWith : Str → Str → Bool
  | [], _ => true
  | _ :: _, [] => false
  | p :: ps, c :: cs => p = c && strStartsWith ps cs

/-- Message roles (src/types.ts `Role`). -/
inductive Role where
  | USER
  | MODEL
deriving DecidableEq, Repr

/-- Conversation-store message record (src/types.ts `Message`); the
timestamp instant is modelled as a natural number. -/
structure Message where
  id : Str
  role : Role
  text : Str
  imageUrl : Option Str
  inputImageUrl : Option Str
  timestamp : Nat
deriving DecidableEq, Repr

/-- The three model variants (src/types.ts `ModelId`). -/
inductive ModelId where
  | standard
  | pro
  | eco
deriving DecidableEq, Repr

/-- A request content part: `{text: ...}` or `{inlineData: {mimeType, data}}`.
The `data` field of an inline part is `Option Str` because the source
destructuring `const [mimeInfo, data] = imageInput.split(',')` leaves `data`
undefined when the input has no comma. -/
inductive ReqPart where
  | text (t : Str)
  | inlineData (mimeType : Str) (data : Option Str)
deriving DecidableEq, Repr

/-- One entry of the outgoing `contents` array. -/
structure Content where
  role : Str
  parts : List ReqPart
deriving DecidableEq, Repr

/-- The provider role string for the user. -/
def userRole : Str := str "user"

/-- Map a history message to a context entry:
`{ role: msg.role === Role.USER ? "user" : "model", parts: [{text: msg.text}] }`. -/
def toContextEntry (m : Message) : Content :=
  ⟨(match m.role with | Role.USER => str "user" | Role.MODEL => str "model"),
   [ReqPart.text m.text]⟩

/-- The dispatcher's splitting of an attached image data-URL:
`const [mimeInfo, data] = imageInput.split(',')` destructured into the
extracted MIME type (regex `/:(.*?);/` with `'image/png'` default) and the
payload segment (`undefined`, i.e. `none`, when the input has no comma). -/
def splitImageInput (s : Str) : Str × Option Str :=
  (extractMime ((splitComma s).headD []), ((splitComma s).drop 1).head?)

/-- The inline-data request part built from an attached image data-URL. -/
def imagePart (img : Str) : ReqPart :=
  ReqPart.inlineData (splitImageInput img).1 (splitImageInput img).2

/-- Specification-side encoding of an image as a data-URL
`data:<mime>;base64,<data>`. -/
def mkDataUrl (m d : Str) : Str :=
  str "data:" ++ m ++ str ";base64," ++ d

/-- Response inline data `{mimeType, data}`. -/
structure ResInline where
  mimeType : Str
  data : Str
deriving DecidableEq, Repr

/-- One part of the provider response candidate content; in the response
JSON a part may carry a `text` field, an `inlineData` field, both or
neither. -/
structure ResPart where
  text : Option Str := none
  inlineData : Option ResInline := none
deriving DecidableEq, Repr

/-- Re-encoding of a response inline-data part as a data-URL:
`` `data:${mimeType};base64,${data}` ``. -/
def reencode (i : ResInline) : Str :=
  str "data:" ++ i.mimeType ++ str ";base64," ++ i.data

/-- Re-encode the inline data of a response part (junk value on a part
without inline data; only applied to image parts). -/
def reencodePart (p : ResPart) : Str :=
  match p.inlineData with
  | some i => reencode i
  | none => []

/-- Is this response part an inline-data part whose MIME type starts with
`"image/"`? (`part.inlineData && part.inlineData.mimeType.startsWith('image/')`). -/
def isImagePart (p : ResPart) : Bool :=
  match p.inlineData with
  | some i => strStartsWith (str "image/") i.mimeType
  | none => false

/-- One iteration of the response-parsing loop of `sendMessageToGemini`:
`if (part.text) text += part.text;` and
`if (part.inlineData && ...startsWith('image/')) imageUrl = data-URL`. -/
def parseStep (acc : Str × Option Str) (p : ResPart) : Str × Option Str :=
  (match p.text with
   | some t => if t = [] then acc.1 else acc.1 ++ t
   | none => acc.1,
   match p.inlineData with
   | some i => if strStartsWith (str "image/") i.mimeType then some (reencode i) else acc.2
   | none => acc.2)

/-- The `(text, imageUrl)` accumulated over the first candidate's parts. -/
def parseParts (parts : List ResPart) : Str × Option Str :=
  parts.foldl parseStep ([], none)

/-- The normalized dispatch result `{ text, imageUrl? }`. -/
structure DispatchResult where
  text : Str
  imageUrl : Option Str
deriving DecidableEq, Repr

/-- The two internal failure kinds of the dispatcher (§7 of the design):
an empty parsed response, or a transport/provider error. -/
inductive DispatchError where
  | emptyResponse
  | transport
deriving DecidableEq, Repr

/-- Parse the first candidate's parts and apply the emptiness check
`if (!text && !imageUrl) throw ...`. -/
def parseCandidate (parts : List ResPart) : Except DispatchError DispatchResult :=
  if (parseParts parts).1 = [] ∧ (parseParts parts).2 = none then
    Except.error DispatchError.emptyResponse
  else Except.ok ⟨(parseParts parts).1, (parseParts parts).2⟩

/-- Specification-side characterization of the parsing loop's `imageUrl`:
the re-encoding of the last image inline part, or the initial value if
there is none. -/
def lastImageUrl (parts : List ResPart) (u : Option Str) : Option Str :=
  match (parts.filter isImagePart).getLast? with
  | some p => some (reencodePart p)
  | none => u

namespace GeminiService

/-- The eco-variant text label prepended in src/services/geminiService.ts:
`` `NikiViti Art conceptualization: ${newMessage}` ``. -/
def ecoLabel : Str := str "NikiViti Art conceptualization: "

/-- The text placed in the base text part of the current turn. -/
def currentText (modelId : ModelId) (newMessage : Str) : Str :=
  match modelId with
  | ModelId.eco => ecoLabel ++ newMessage
  | _ => newMessage

/-- The `parts` array of the current turn: the base text part, with the
inline-data part unshifted in front of it when an image is attached. -/
def buildParts (newMessage : Str) (modelId : ModelId) (imageInput : Option Str) :
    List ReqPart :=
  match imageInput with
  | some img => [imagePart img, ReqPart.text (currentText modelId newMessage)]
  | none => [ReqPart.text (currentText modelId newMessage)]

/-- The current-turn entry pushed onto `contents`:
`{ role: "user", parts: (parts.length > 1 || imageInput) ? parts : [{text: newMessage}] }`. -/
def currentTurn (newMessage : Str) (modelId : ModelId) (imageInput : Option Str) :
    Content :=
  let parts := buildParts newMessage modelId imageInput
  ⟨userRole,
   if parts.length > 1 ∨ imageInput.isSome then parts else [ReqPart.text newMessage]⟩

/-- The full `contents` array: the history context (empty for `eco`, else
the last 12 history messages mapped to context entries) followed by the
current turn. -/
def buildContents (history : List Message) (newMessage : Str) (modelId : ModelId)
    (imageInput : Option Str) : List Content :=
  (match modelId with
   | ModelId.eco => []
   | _ => (jsSliceLast 12 history).map toContextEntry)
  ++ [currentTurn newMessage modelId imageInput]

/-- The provider model name resolved from the variant. -/
def modelNameFor : ModelId → Str
  | ModelId.eco => str "gemini-2.5-flash-image"
  | ModelId.pro => str "gemini-3-pro-preview"
  | ModelId.standard => str "gemini-3-flash-preview"

/-- The outgoing provider request (model name and contents). -/
structure GenRequest where
  model : Str
  contents : List Content
deriving DecidableEq, Repr

/-- Assemble the provider request for one dispatch. -/
def assembleRequest (history : List Message) (newMessage : Str) (modelId : ModelId)
    (imageInput : Option Str) : GenRequest :=
  ⟨modelNameFor modelId, buildContents history newMessage modelId imageInput⟩

/-- The single user-facing error string of the dispatcher's catch block. -/
def solarisError : Str := str "Сбой Solaris Core. Повторите запрос через мгновение."

/-- The dispatcher `sendMessageToGemini`: assembles the request, and turns
the outcome of the one provider call (a transport error, or a response whose
first candidate yields `parts` — `none` models a missing
`candidates?.[0]?.content?.parts`, defaulted to `[]` by `|| []`) into either
a `DispatchResult` or, through the catch block, the single fixed error
string. -/
def sendMessageToGemini (history : List Message) (newMessage : Str)
    (modelId : ModelId) (imageInput : Option Str)
    (provider : Except Unit (Option (List ResPart))) :
    GenRequest × Except Str DispatchResult :=
  (assembleRequest history newMessage modelId imageInput,
   match provider with
   | Except.error _ => Except.error solarisError
   | Except.ok o =>
     match parseCandidate (o.getD []) with
     | Except.error _ => Except.error solarisError
     | Except.ok r => Except.ok r)

end GeminiService

namespace Part003

/-- The eco-variant text label of the src/unnamed/part_003 revision:
`` `Art Concept: ${newMessage}` ``. -/
def ecoLabel : Str := str "Art Concept: "

/-- Current-turn base text of the part_003 revision. -/
def currentText (modelId : ModelId) (newMessage : Str) : Str :=
  match modelId with
  | ModelId.eco => ecoLabel ++ newMessage
  | _ => newMessage

/-- Current-turn parts of the part_003 revision. -/
def buildParts (newMessage : Str) (modelId : ModelId) (imageInput : Option Str) :
    List ReqPart :=
  match imageInput with
  | some img => [imagePart img, ReqPart.text (currentText modelId newMessage)]
  | none => [ReqPart.text (currentText modelId newMessage)]

/-- Current-turn entry of the part_003 revision. -/
def currentTurn (newMessage : Str) (modelId : ModelId) (imageInput : Option Str) :
    Content :=
  let parts := buildParts newMessage modelId imageInput
  ⟨userRole,
   if parts.length > 1 ∨ imageInput.isSome then parts else [ReqPart.text newMessage]⟩

/-- The `contents` array of the part_003 revision, whose context window is
the last 15 history messages (`history.slice(-15)`). -/
def buildContents (history : List Message) (newMessage : Str) (modelId : ModelId)
    (imageInput : Option Str) : List Content :=
  (match modelId with
   | ModelId.eco => []
   | _ => (jsSliceLast 15 history).map toContextEntry)
  ++ [currentTurn newMessage modelId imageInput]

end Part003

namespace Part002

/-- The fallback text of the src/unnamed/part_002 revision:
`input || "Requesting processing."`. -/
def fallbackText : Str := str "Requesting processing."

/-- Current-turn parts of the part_002 revision: the fallback applies to
every variant, and the inline part is unshifted in front when an image is
attached. -/
def buildCurrentParts (input : Str) (image : Option Str) : List ReqPart :=
  let base := [ReqPart.text (if input = [] then fallbackText else input)]
  match image with
  | some img => imagePart img :: base
  | none => base

/-- The `contents` array of the part_002 revision: history empty for `eco`,
else the last 12 messages, followed by the current turn. -/
def buildContents (messages : List Message) (input : Str) (model : ModelId)
    (image : Option Str) : List Content :=
  (match model with
   | ModelId.eco => []
   | _ => (jsSliceLast 12 messages).map toContextEntry)
  ++ [⟨userRole, buildCurrentParts input image⟩]

end Part002

namespace App

/-- The session state held by App.tsx (`ChatState`). -/
structure ChatState where
  messages : List Message
  isLoading : Bool
  error : Option Str
  selectedModel : ModelId
deriving DecidableEq, Repr

/-- The text substituted for an image-only user message in App.tsx. -/
def sysImgText : Str := str "[Система: Входящее изображение]"

/-- The user message appended by the caller:
`text: input || (selectedImage ? "[Система: Входящее изображение]" : "")`. -/
def mkUserMessage (input : Str) (img : Option Str) (uid : Str) (now : Nat) :
    Message :=
  { id := uid, role := Role.USER,
    text := if input = [] then (match img with | some _ => sysImgText | none => []) else input,
    imageUrl := none, inputImageUrl := img, timestamp := now }

/-- The model message appended by the caller from a dispatch result. -/
def mkAiMessage (r : DispatchResult) (aid : Str) (now : Nat) : Message :=
  { id := aid, role := Role.MODEL, text := r.text, imageUrl := r.imageUrl,
    inputImageUrl := none, timestamp := now }

/-- The App.tsx `handleSendMessage` turn, collapsed to its final state:
the guard `(!input.trim() && !selectedImage) || state.isLoading` suppresses
the turn; otherwise the user message is appended and the dispatch outcome
either appends the model message or records the error string as session
error state. -/
def handleSendMessage (st : ChatState) (input : Str) (img : Option Str)
    (uid aid : Str) (now now2 : Nat)
    (provider : Except Unit (Option (List ResPart))) : ChatState :=
  if (trimChars input = [] ∧ img = none) ∨ st.isLoading = true then st
  else
    match (GeminiService.sendMessageToGemini st.messages input st.selectedModel
            img provider).2 with
    | Except.ok r =>
      { st with
        messages := st.messages ++ [mkUserMessage input img uid now,
                                    mkAiMessage r aid now2],
        isLoading := false, error := none }
    | Except.error e =>
      { st with
        messages := st.messages ++ [mkUserMessage input img uid now],
        isLoading := false, error := some e }

end App

/-- A 20-message example history used to instantiate concrete scenarios. -/
def mkMsg (i : Nat) : Message :=
  { id := [], role := Role.USER, text := [], imageUrl := none,
    inputImageUrl := none, timestamp := i }

/-- Twenty prior messages. -/
def ex20 : List Message := (List.range 20).map mkMsg

/-- The initial session state used to instantiate concrete scenarios. -/
def st0 : App.ChatState :=
  { messages := [], isLoading := false, error := none,
    selectedModel := ModelId.standard }

deriving instance DecidableEq for Except

/-- The `imageUrl` component of one parsing step: the part's re-encoding if
it is an image inline part, the accumulator otherwise. -/
theorem parseStep_snd (a : Str × Option Str) (p : ResPart) :
    (parseStep a p).2 = if isImagePart p then some (reencodePart p) else a.2 := by
  cases hp : p.inlineData with
  | none => simp [parseStep, hp, isImagePart]
  | some i => simp [parseStep, hp, isImagePart, reencodePart]

/-- The text accumulated by the parsing loop is the initial text followed by
the concatenation, in order, of all text fields of the parts. -/
theorem parseParts_fst_aux (parts : List ResPart) :
    ∀ a : Str × Option Str,
      (parts.foldl parseStep a).1 = a.1 ++ (parts.filterMap ResPart.text).flatten := by
  induction parts with
  | nil => intro a; simp
  | cons p rest ih =>
    intro a
    rw [List.foldl_cons, ih]
    cases hp : p.text with
    | none => simp [parseStep, hp, List.filterMap_cons]
    | some tx =>
      by_cases htx : tx = []
      · simp [parseStep, hp, htx, List.filterMap_cons]
      · simp [parseStep, hp, htx, List.filterMap_cons, List.append_assoc]

/-- The `imageUrl` accumulated by the parsing loop is the re-encoding of the
last image inline part, or the initial value when there is none. -/
theorem parseParts_snd_aux (parts : List ResPart) :
    ∀ a : Str × Option Str,
      (parts.foldl parseStep a).2 = lastImageUrl parts a.2 := by
  induction parts with
  | nil => intro a; simp [lastImageUrl]
  | cons p rest ih =>
    intro a
    rw [List.foldl_cons, ih, parseStep_snd]
    by_cases hip : isImagePart p = true
    · cases hl : rest.filter isImagePart with
      | nil => simp [lastImageUrl, hl, List.filter_cons, hip]
      | cons q qs =>
        cases hq : (q :: qs).getLast? with
        | none => simp [List.getLast?_eq_none_iff] at hq
        | some z =>
          simp [lastImageUrl, hl, List.filter_cons, hip, List.getLast?_cons_cons, hq]
    · simp [lastImageUrl, List.filter_cons, hip]

/-- `parseParts` text characterization. -/
theorem parseParts_fst (parts : List ResPart) :
    (parseParts parts).1 = (parts.filterMap ResPart.text).flatten := by
  have h := parseParts_fst_aux parts ([], none)
  simpa [parseParts] using h

/-- `parseParts` image characterization. -/
theorem parseParts_snd (parts : List ResPart) :
    (parseParts parts).2 = lastImageUrl parts none := by
  have h := parseParts_snd_aux parts ([], none)
  simpa [parseParts] using h


/-- Claim C1 (amended): when the dispatcher's response parsing succeeds, the
result's `text` is the in-order concatenation of all text parts of the first
candidate, and `imageUrl` is the data-URL re-encoding of the LAST (not the
first) inline-data part whose MIME type starts with `"image/"` — the parsing
loop overwrites `imageUrl` on every image part. -/
theorem c1_parse_last_image (parts : List ResPart) (r : DispatchResult)
    (h : parseCandidate parts = Except.ok r) :
    r.text = (parts.filterMap ResPart.text).flatten
      ∧ r.imageUrl = lastImageUrl parts none := by
  unfold parseCandidate at h
  by_cases hc : (parseParts parts).1 = [] ∧ (parseParts parts).2 = none
  · rw [if_pos hc] at h
    exact absurd h (by simp)
  · rw [if_neg hc] at h
    injection h with h
    rw [← h]
    exact ⟨parseParts_fst parts, parseParts_snd parts⟩

/-- Witness for C1 at a concrete one-text-part response. -/
theorem c1_parse_last_image_witness :
    (DispatchResult.mk (str "hi") none).text
        = ([ResPart.mk (some (str "hi")) none].filterMap ResPart.text).flatten
      ∧ (DispatchResult.mk (str "hi") none).imageUrl
        = lastImageUrl [ResPart.mk (some (str "hi")) none] none :=
  c1_parse_last_image [ResPart.mk (some (str "hi")) none]
    (DispatchResult.mk (str "hi") none) (by decide)

/-- Claim C1 as stated is false: on a candidate with two image inline parts
the dispatcher returns the data-URL of the SECOND (last) one, which differs
from the re-encoding of the first. -/
theorem c1_counterexample :
    parseCandidate
        [ResPart.mk none (some (ResInline.mk (str "image/png") (str "AAAA"))),
         ResPart.mk none (some (ResInline.mk (str "image/jpeg") (str "BBBB")))]
      = Except.ok (DispatchResult.mk [] (some (str "data:image/jpeg;base64,BBBB")))
      ∧ str "data:image/jpeg;base64,BBBB"
        ≠ reencode (ResInline.mk (str "image/png") (str "AAAA")) := by
  constructor
  · decide
  · decide

/-- Claim C4: a first candidate whose parts carry no text field and at least
one image inline part parses to a result with empty `text` and a populated
`imageUrl`; a candidate whose parts carry neither a text field nor an
image-MIME inline part makes the parse step fail with `EmptyResponse`, and
the dispatcher as a whole then fails (with the converted error string of the
catch block) instead of returning a result. -/
theorem c4_empty_response :
    (∀ parts : List ResPart, (∀ p ∈ parts, p.text = none) →
      (∃ p ∈ parts, isImagePart p = true) →
      ∃ r, parseCandidate parts = Except.ok r ∧ r.text = []
        ∧ r.imageUrl.isSome = true)
    ∧ (∀ parts : List ResPart, (∀ p ∈ parts, p.text = none ∧ isImagePart p = false) →
      parseCandidate parts = Except.error DispatchError.emptyResponse)
    ∧ (∀ (hist : List Message) (nm : Str) (mid : ModelId) (img : Option Str)
        (parts : List ResPart),
      (∀ p ∈ parts, p.text = none ∧ isImagePart p = false) →
      (GeminiService.sendMessageToGemini hist nm mid img
          (Except.ok (some parts))).2
        = Except.error GeminiService.solarisError) := by
  have hfst : ∀ parts : List ResPart, (∀ p ∈ parts, p.text = none) →
      (parseParts parts).1 = [] := by
    intro parts hp
    rw [parseParts_fst]
    have : parts.filterMap ResPart.text = [] := by
      rw [List.filterMap_eq_nil_iff]
      exact hp
    rw [this]
    rfl
  have hempty : ∀ parts : List ResPart,
      (∀ p ∈ parts, p.text = none ∧ isImagePart p = false) →
      parseCandidate parts = Except.error DispatchError.emptyResponse := by
    intro parts hp
    have h1 : (parseParts parts).1 = [] := hfst parts (fun p hm => (hp p hm).1)
    have h2 : (parseParts parts).2 = none := by
      rw [parseParts_snd]
      have : parts.filter isImagePart = [] := by
        rw [List.filter_eq_nil_iff]
        intro p hm
        simp [(hp p hm).2]
      simp [lastImageUrl, this]
    unfold parseCandidate
    rw [if_pos ⟨h1, h2⟩]
  refine ⟨?_, hempty, ?_⟩
  · intro parts hp himg
    have h1 : (parseParts parts).1 = [] := hfst parts hp
    have h2 : (parseParts parts).2 ≠ none := by
      rw [parseParts_snd]
      obtain ⟨p, hm, hi⟩ := himg
      have : parts.filter isImagePart ≠ [] := by
        intro hnil
        have : p ∈ parts.filter isImagePart := List.mem_filter.mpr ⟨hm, hi⟩
        rw [hnil] at this
        exact absurd this (List.not_mem_nil p)
      unfold lastImageUrl
      cases hq : (parts.filter isImagePart).getLast? with
      | none => exact absurd (List.getLast?_eq_none_iff.mp hq) this
      | some z => simp
    refine ⟨⟨(parseParts parts).1, (parseParts parts).2⟩, ?_, h1, ?_⟩
    · unfold parseCandidate
      rw [if_neg (fun hc => h2 hc.2)]
    · simpa [Option.isSome_iff_ne_none] using h2
  · intro hist nm mid img parts hp
    unfold GeminiService.sendMessageToGemini
    simp only [Option.getD_some]
    rw [hempty parts hp]

/-- Witness for C4: a single-image-part candidate parses to an empty-text,
populated-image result; the empty candidate list yields `EmptyResponse`, and
the full dispatcher converts it to the fixed error string. -/
theorem c4_empty_response_witness :
    (∃ r, parseCandidate
        [ResPart.mk none (some (ResInline.mk (str "image/png") (str "QUJD")))]
        = Except.ok r ∧ r.text = [] ∧ r.imageUrl.isSome = true)
    ∧ parseCandidate [] = Except.error DispatchError.emptyResponse
    ∧ (GeminiService.sendMessageToGemini [] [] ModelId.standard none
        (Except.ok (some []))).2 = Except.error GeminiService.solarisError :=
  ⟨c4_empty_response.1
      [ResPart.mk none (some (ResInline.mk (str "image/png") (str "QUJD")))]
      (by decide) (by decide),
   c4_empty_response.2.1 [] (by decide),
   c4_empty_response.2.2 [] [] ModelId.standard none [] (by decide)⟩

/-- Claim C2 (amended): for a history of 20 prior messages and variant
`standard`, the dispatcher of src/services/geminiService.ts assembles
exactly the last 12 history messages as context entries followed by exactly
one current-turn entry (`history.slice(-12)`); the part_003 revision uses a
window of 15. -/
theorem c2_window_sizes (history : List Message) (nm : Str) (img : Option Str)
    (h : history.length = 20) :
    (GeminiService.assembleRequest history nm ModelId.standard img).contents
      = (history.drop 8).map toContextEntry
        ++ [GeminiService.currentTurn nm ModelId.standard img]
    ∧ Part003.buildContents history nm ModelId.standard img
      = (history.drop 5).map toContextEntry
        ++ [Part003.currentTurn nm ModelId.standard img] := by
  constructor
  · unfold GeminiService.assembleRequest GeminiService.buildContents jsSliceLast
    simp [h]
  · unfold Part003.buildContents jsSliceLast
    simp [h]

/-- Witness for C2 on a concrete 20-message history. -/
theorem c2_window_sizes_witness :
    (GeminiService.assembleRequest ex20 [] ModelId.standard none).contents
      = (ex20.drop 8).map toContextEntry
        ++ [GeminiService.currentTurn [] ModelId.standard none]
    ∧ Part003.buildContents ex20 [] ModelId.standard none
      = (ex20.drop 5).map toContextEntry
        ++ [Part003.currentTurn [] ModelId.standard none] :=
  c2_window_sizes ex20 [] none (by decide)

/-- Claim C2 as stated is false for the dispatcher of
src/services/geminiService.ts: on a 20-message history the assembled
contents have 13 entries (12 context + 1 current turn), not the 16 that
"the last 15 as context plus the new turn" would require. -/
theorem c2_counterexample :
    (GeminiService.assembleRequest ex20 [] ModelId.standard none).contents.length = 13
    ∧ ((ex20.drop 5).map toContextEntry
        ++ [GeminiService.currentTurn [] ModelId.standard none]).length = 16
    ∧ (GeminiService.assembleRequest ex20 [] ModelId.standard none).contents
      ≠ (ex20.drop 5).map toContextEntry
        ++ [GeminiService.currentTurn [] ModelId.standard none] := by
  exact ⟨by decide, by decide, by decide⟩

/-- Claim C3 (amended): with empty new text and an attached image, the
dispatcher of src/services/geminiService.ts sends as current-turn text part
the fixed non-empty eco label for `eco`, but the EMPTY string for non-eco
variants; the non-empty "Requesting processing." fallback exists only in the
part_002 revision, where it applies to every variant. -/
theorem c3_current_text (img : Str) :
    GeminiService.currentTurn [] ModelId.eco (some img)
      = ⟨userRole, [imagePart img, ReqPart.text GeminiService.ecoLabel]⟩
    ∧ GeminiService.ecoLabel ≠ []
    ∧ GeminiService.currentTurn [] ModelId.standard (some img)
      = ⟨userRole, [imagePart img, ReqPart.text []]⟩
    ∧ Part002.buildCurrentParts [] (some img)
      = [imagePart img, ReqPart.text Part002.fallbackText]
    ∧ Part002.fallbackText ≠ [] := by
  refine ⟨?_, by decide, ?_, ?_, by decide⟩
  · unfold GeminiService.currentTurn GeminiService.buildParts GeminiService.currentText
    simp
  · unfold GeminiService.currentTurn GeminiService.buildParts GeminiService.currentText
    simp
  · unfold Part002.buildCurrentParts
    simp

/-- Claim C3 as stated is false: for a non-eco variant with empty text and
an attached image, the current-turn text part of the
src/services/geminiService.ts dispatcher is the empty string, not a
non-empty fallback. -/
theorem c3_counterexample :
    GeminiService.currentTurn [] ModelId.standard
        (some (str "data:image/png;base64,QUJD"))
      = ⟨userRole, [ReqPart.inlineData (str "image/png") (some (str "QUJD")),
                    ReqPart.text []]⟩
    ∧ ∀ t : Str, ReqPart.text t ∈ (GeminiService.currentTurn [] ModelId.standard
        (some (str "data:image/png;base64,QUJD"))).parts → t = [] := by
  have h : GeminiService.currentTurn [] ModelId.standard
      (some (str "data:image/png;base64,QUJD"))
      = ⟨userRole, [ReqPart.inlineData (str "image/png") (some (str "QUJD")),
                    ReqPart.text []]⟩ := by decide
  refine ⟨h, ?_⟩
  intro t ht
  rw [h] at ht
  simp at ht
  exact ht

/-- Claim C6 (amended): for every message sequence and every n ≥ 1, the
trailing-window operation `slice(-n)` returns exactly the last
`min(n, length)` messages in original order (at n = 0 the JS idiom
`slice(-0)` returns the entire sequence instead). -/
theorem c6_trailing_window (n : Nat) (msgs : List Message) (h : 1 ≤ n) :
    jsSliceLast n msgs = msgs.drop (msgs.length - min n msgs.length)
    ∧ (jsSliceLast n msgs).length = min n msgs.length := by
  have hn : ¬ n = 0 := by omega
  constructor
  · unfold jsSliceLast
    rw [if_neg hn]
    congr 1
    omega
  · unfold jsSliceLast
    rw [if_neg hn, List.length_drop]
    omega

/-- Witness for C6 at n = 1 on a one-message store. -/
theorem c6_trailing_window_witness :
    jsSliceLast 1 [mkMsg 0]
      = [mkMsg 0].drop ([mkMsg 0].length - min 1 [mkMsg 0].length)
    ∧ (jsSliceLast 1 [mkMsg 0]).length = min 1 [mkMsg 0].length :=
  c6_trailing_window 1 [mkMsg 0] (by decide)

/-- Claim C6 as stated (for every n) is false at n = 0: `slice(-0)` returns
the whole sequence, while the last `min(0, length)` messages are none. -/
theorem c6_counterexample :
    jsSliceLast 0 [mkMsg 0] = [mkMsg 0]
    ∧ [mkMsg 0].drop ([mkMsg 0].length - min 0 [mkMsg 0].length) = []
    ∧ ([mkMsg 0] : List Message) ≠ [] := by
  exact ⟨by decide, by decide, by decide⟩

/-- Claim C7: for every history, with variant `eco` the assembled request's
context list is empty — the contents are exactly the single current-turn
entry, both in src/services/geminiService.ts and in the part_002 revision. -/
theorem c7_eco_context (history : List Message) (nm : Str) (img : Option Str) :
    (GeminiService.assembleRequest history nm ModelId.eco img).contents
      = [GeminiService.currentTurn nm ModelId.eco img]
    ∧ Part002.buildContents history nm ModelId.eco img
      = [Content.mk userRole (Part002.buildCurrentParts nm img)] := by
  constructor
  · unfold GeminiService.assembleRequest GeminiService.buildContents
    simp
  · unfold Part002.buildContents
    simp

/-- `split(',')` on a comma-free string yields the single segment. -/
theorem splitComma_no_comma (s : Str) (h : ',' ∉ s) : splitComma s = [s] := by
  induction s with
  | nil => rfl
  | cons c rest ih =>
    have hc : ¬ c = ',' := fun hch => h (hch ▸ List.mem_cons_self c rest)
    have hr : ',' ∉ rest := fun hm => h (List.mem_cons_of_mem c hm)
    simp only [splitComma]
    rw [if_neg hc, ih hr]

/-- `split(',')` peels a leading comma-free segment. -/
theorem splitComma_append (a b : Str) (h : ',' ∉ a) :
    splitComma (a ++ ',' :: b) = a :: splitComma b := by
  induction a with
  | nil => simp [splitComma]
  | cons c rest ih =>
    have hc : ¬ c = ',' := fun hch => h (hch ▸ List.mem_cons_self c rest)
    have hr : ',' ∉ rest := fun hm => h (List.mem_cons_of_mem c hm)
    simp only [List.cons_append, splitComma, List.append_eq]
    rw [if_neg hc, ih hr]

/-- `split(',')` never produces an empty segment list. -/
theorem splitComma_ne_nil (s : Str) : splitComma s ≠ [] := by
  cases s with
  | nil => simp [splitComma]
  | cons c rest =>
    simp only [splitComma]
    by_cases hc : c = ','
    · simp [hc]
    · rw [if_neg hc]
      cases h : splitComma rest <;> simp

/-- The lazy capture reaches exactly the first `';'` after a
semicolon-free segment. -/
theorem captureUpToSemi_append (m r : Str) (h : ';' ∉ m) :
    captureUpToSemi (m ++ ';' :: r) = some m := by
  induction m with
  | nil => simp [captureUpToSemi]
  | cons c rest ih =>
    have hc : ¬ c = ';' := fun hch => h (hch ▸ List.mem_cons_self c rest)
    have hr : ';' ∉ rest := fun hm => h (List.mem_cons_of_mem c hm)
    simp only [List.cons_append, captureUpToSemi, List.append_eq]
    rw [if_neg hc, ih hr]
    rfl

/-- On the header `data:<m>;base64` of a well-formed data-URL the regex
`/:(.*?);/` captures the MIME type `m`. -/
theorem matchColonSemi_header (m : Str) (hm : ';' ∉ m) :
    matchColonSemi (str "data:" ++ (m ++ str ";base64")) = some m := by
  have hdata : str "data:" ++ (m ++ str ";base64")
      = 'd' :: 'a' :: 't' :: 'a' :: ':' :: (m ++ str ";base64") := by
    have h5 : str "data:" = ['d', 'a', 't', 'a', ':'] := by decide
    rw [h5]
    simp
  have hcap : captureUpToSemi (m ++ str ";base64") = some m := by
    have h64 : str ";base64" = ';' :: str "base64" := by decide
    rw [h64]
    exact captureUpToSemi_append m _ hm
  rw [hdata]
  simp [matchColonSemi, hcap]

/-- Claim C5: splitting the data-URL `data:<m>;base64,<d>` the way the
dispatcher splits an attached image yields exactly the MIME type `m` and
payload `d`, and re-encoding that pair the way the dispatcher re-encodes a
response inline-data part reproduces the identical data-URL — for every
non-empty MIME type without `';'`/`','` and every comma-free (in particular
base64) payload. -/
theorem c5_dataurl_roundtrip (m d : Str) (hm0 : m ≠ []) (hm1 : ';' ∉ m)
    (hm2 : ',' ∉ m) (hd : ',' ∉ d) :
    splitImageInput (mkDataUrl m d) = (m, some d)
    ∧ reencode (ResInline.mk m d) = mkDataUrl m d := by
  have hurl : mkDataUrl m d = (str "data:" ++ m ++ str ";base64") ++ ',' :: d := by
    have h64 : str ";base64," = str ";base64" ++ [','] := by decide
    rw [mkDataUrl, h64]
    simp
  have hnc : ',' ∉ (str "data:" ++ m ++ str ";base64") := by
    simp only [List.mem_append, not_or]
    exact ⟨⟨by decide, hm2⟩, by decide⟩
  have hsplit : splitComma (mkDataUrl m d)
      = (str "data:" ++ m ++ str ";base64") :: splitComma d := by
    rw [hurl]
    exact splitComma_append _ d hnc
  constructor
  · unfold splitImageInput
    rw [hsplit, splitComma_no_comma d hd]
    simp [extractMime, matchColonSemi_header m hm1, hm0]
  · rfl

/-- Witness for C5 at `mime = image/png`, `payload = QUJD`. -/
theorem c5_dataurl_roundtrip_witness :
    splitImageInput (mkDataUrl (str "image/png") (str "QUJD"))
      = (str "image/png", some (str "QUJD"))
    ∧ reencode (ResInline.mk (str "image/png") (str "QUJD"))
      = mkDataUrl (str "image/png") (str "QUJD") :=
  c5_dataurl_roundtrip (str "image/png") (str "QUJD")
    (by decide) (by decide) (by decide) (by decide)

/-- Claim C10 (amended): for an attached image whose header segment has no
parseable `:<mime>;` pattern, the dispatcher still builds an inline-data
part with MIME type defaulted to `"image/png"`, but its payload is the
segment of the input between the first and the second comma (the whole
remainder only when the payload is comma-free). -/
theorem c10_mime_default (a b : Str) (ha : ',' ∉ a)
    (hm : matchColonSemi a = none) :
    imagePart (a ++ ',' :: b)
      = ReqPart.inlineData defaultPng (some ((splitComma b).headD []))
    ∧ (',' ∉ b → (splitComma b).headD [] = b) := by
  constructor
  · unfold imagePart splitImageInput
    rw [splitComma_append a b ha]
    cases hsc : splitComma b with
    | nil => exact absurd hsc (splitComma_ne_nil b)
    | cons x xs => simp [extractMime, hm, hsc]
  · intro hb
    rw [splitComma_no_comma b hb]
    rfl

/-- Witness for C10 at the unparseable header `xx` with payload `yy`. -/
theorem c10_mime_default_witness :
    imagePart (str "xx" ++ ',' :: str "yy")
      = ReqPart.inlineData defaultPng (some ((splitComma (str "yy")).headD []))
    ∧ (',' ∉ str "yy" → (splitComma (str "yy")).headD [] = str "yy") :=
  c10_mime_default (str "xx") (str "yy") (by decide) (by decide)

/-- Claim C10 as stated is false on an input with two commas: the payload
kept is the segment between the commas (`yy`), not the whole portion after
the first comma (`yy,zz`). -/
theorem c10_counterexample :
    imagePart (str "xx,yy,zz")
      = ReqPart.inlineData (str "image/png") (some (str "yy"))
    ∧ some (str "yy") ≠ some (str "yy,zz") := by
  exact ⟨by decide, by decide⟩

/-- Every error the dispatcher surfaces is the single fixed string of its
catch block. -/
theorem dispatch_error_eq (history : List Message) (nm : Str) (mid : ModelId)
    (img : Option Str) (provider : Except Unit (Option (List ResPart)))
    (e : Str)
    (h : (GeminiService.sendMessageToGemini history nm mid img provider).2
      = Except.error e) :
    e = GeminiService.solarisError := by
  unfold GeminiService.sendMessageToGemini at h
  cases provider with
  | error u =>
    injection h with h
    exact h.symm
  | ok o =>
    simp only at h
    cases hp : parseCandidate (o.getD []) with
    | error de =>
      rw [hp] at h
      injection h with h
      exact h.symm
    | ok r =>
      rw [hp] at h
      exact absurd h (by simp)

/-- Claim C8: whenever a dispatch fails — transport error or empty
response — the surfaced error is the one fixed string, it is stored as
session error state, and the store after the failed turn contains exactly
the previously stored messages plus the appended user message; no error is
appended to the store as a `Message`. -/
theorem c8_single_error (st : App.ChatState) (input : Str) (img : Option Str)
    (uid aid : Str) (now now2 : Nat)
    (provider : Except Unit (Option (List ResPart))) (e : Str)
    (hguard : ¬((trimChars input = [] ∧ img = none) ∨ st.isLoading = true))
    (hfail : (GeminiService.sendMessageToGemini st.messages input
        st.selectedModel img provider).2 = Except.error e) :
    e = GeminiService.solarisError
    ∧ App.handleSendMessage st input img uid aid now now2 provider
      = { st with
          messages := st.messages ++ [App.mkUserMessage input img uid now],
          isLoading := false, error := some GeminiService.solarisError } := by
  have he : e = GeminiService.solarisError :=
    dispatch_error_eq st.messages input st.selectedModel img provider e hfail
  subst he
  refine ⟨rfl, ?_⟩
  unfold App.handleSendMessage
  rw [if_neg hguard, hfail]

/-- Witness for C8: a transport failure on the initial session state. -/
theorem c8_single_error_witness :
    GeminiService.solarisError = GeminiService.solarisError
    ∧ App.handleSendMessage st0 (str "hi") none [] [] 0 0 (Except.error ())
      = { st0 with
          messages := st0.messages ++ [App.mkUserMessage (str "hi") none [] 0],
          isLoading := false, error := some GeminiService.solarisError } :=
  c8_single_error st0 (str "hi") none [] [] 0 0 (Except.error ())
    GeminiService.solarisError (by decide) (by decide)

/-- Claim C9: the dispatcher is a pure function of the history snapshot —
on a successful turn the store afterwards is exactly the prior history
(unchanged, as a prefix) with the user message and the result message
appended by the caller. -/
theorem c9_caller_appends (st : App.ChatState) (input : Str) (img : Option Str)
    (uid aid : Str) (now now2 : Nat)
    (provider : Except Unit (Option (List ResPart))) (r : DispatchResult)
    (hguard : ¬((trimChars input = [] ∧ img = none) ∨ st.isLoading = true))
    (hok : (GeminiService.sendMessageToGemini st.messages input
        st.selectedModel img provider).2 = Except.ok r) :
    App.handleSendMessage st input img uid aid now now2 provider
      = { st with
          messages := st.messages
            ++ [App.mkUserMessage input img uid now,
                App.mkAiMessage r aid now2],
          isLoading := false, error := none } := by
  unfold App.handleSendMessage
  rw [if_neg hguard, hok]

/-- Witness for C9: a successful one-text-part dispatch on the initial
session state. -/
theorem c9_caller_appends_witness :
    App.handleSendMessage st0 (str "hi") none [] [] 0 0
        (Except.ok (some [ResPart.mk (some (str "ok")) none]))
      = { st0 with
          messages := st0.messages
            ++ [App.mkUserMessage (str "hi") none [] 0,
                App.mkAiMessage (DispatchResult.mk (str "ok") none) [] 0],
          isLoading := false, error := none } :=
  c9_caller_appends st0 (str "hi") none [] [] 0 0
    (Except.ok (some [ResPart.mk (some (str "ok")) none]))
    (DispatchResult.mk (str "ok") none) (by decide) (by decide)
